import Mathlib

/-!
Shallow embedding of the POSIX serial-port implementation
(`src/impl/unix.cc` of clearpathrobotics/serial): timespec duration
arithmetic, the `SerialImpl` handle state, its configuration setters,
and the deadline-bounded read/write transfer loops, together with
theorems checking the natural-language specification against this
embedding.

Machine integers (`time_t`, `long`) are modelled as unbounded `Int`;
sizes (`size_t`) as `Nat`.  The source explicitly disclaims overflow
protection in its timespec helpers, and the properties checked are the
"absent overflow" ones.
-/

set_option linter.unnecessarySeqFocus false

namespace SerialSpec

/-- `struct timespec`: seconds (`time_t`) and nanoseconds (`long`). -/
structure Timespec where
  tv_sec : Int
  tv_nsec : Int
  deriving Repr, DecidableEq

/-- Total time in nanoseconds represented by a timespec
(`tv_sec * 1e9 + tv_nsec`). -/
def Timespec.total (t : Timespec) : Int :=
  t.tv_sec * 1000000000 + t.tv_nsec

/-- First loop of `normalize`, with an explicit iteration budget so that
the definition reduces inside the kernel:
`while (ts->tv_nsec < 0) { ts->tv_nsec += 1e9; ts->tv_sec -= 1; }`. -/
def normalizeNegLoopF : Nat → Int → Int → Int × Int
  | 0, s, ns => (s, ns)
  | fuel + 1, s, ns =>
    if ns < 0 then normalizeNegLoopF fuel (s - 1) (ns + 1000000000) else (s, ns)

/-- First loop of `normalize`, run with a budget that provably covers
every iteration the while loop performs (see `normalizeNegLoop_spec`). -/
def normalizeNegLoop (s ns : Int) : Int × Int :=
  normalizeNegLoopF (ns.natAbs / 1000000000 + 1) s ns

/-- Second loop of `normalize`, with an explicit iteration budget:
`while (ts->tv_nsec >= 1e9) { ts->tv_nsec -= 1e9; ts->tv_sec += 1; }`. -/
def normalizePosLoopF : Nat → Int → Int → Int × Int
  | 0, s, ns => (s, ns)
  | fuel + 1, s, ns =>
    if ns ≥ 1000000000 then normalizePosLoopF fuel (s + 1) (ns - 1000000000)
    else (s, ns)

/-- Second loop of `normalize`, run with a budget that provably covers
every iteration the while loop performs (see `normalizePosLoop_spec`). -/
def normalizePosLoop (s ns : Int) : Int × Int :=
  normalizePosLoopF (ns.natAbs / 1000000000 + 1) s ns

/-- `normalize` from unix.cc: bring `tv_nsec` into `[0, 1e9)`, carrying
into / borrowing from `tv_sec` (the two while loops run in sequence). -/
def normalize (ts : Timespec) : Timespec :=
  ⟨(normalizePosLoop (normalizeNegLoop ts.tv_sec ts.tv_nsec).1
      (normalizeNegLoop ts.tv_sec ts.tv_nsec).2).1,
   (normalizePosLoop (normalizeNegLoop ts.tv_sec ts.tv_nsec).1
      (normalizeNegLoop ts.tv_sec ts.tv_nsec).2).2⟩

/-- `operator+` on timespecs: componentwise sum, then `normalize`. -/
def timespecAdd (a b : Timespec) : Timespec :=
  normalize ⟨a.tv_sec + b.tv_sec, a.tv_nsec + b.tv_nsec⟩

/-- `operator-` on timespecs: componentwise difference, then `normalize`. -/
def timespecSub (a b : Timespec) : Timespec :=
  normalize ⟨a.tv_sec - b.tv_sec, a.tv_nsec - b.tv_nsec⟩

/-- `operator*` of a timespec and a `size_t`: componentwise scaling, then
`normalize`. -/
def timespecMul (ts : Timespec) (mul : Nat) : Timespec :=
  normalize ⟨ts.tv_sec * (mul : Int), ts.tv_nsec * (mul : Int)⟩

/-- `min` on timespecs: lexicographic by seconds then nanoseconds. -/
def timespecMin (a b : Timespec) : Timespec :=
  if a.tv_sec < b.tv_sec ∨ (a.tv_sec = b.tv_sec ∧ a.tv_nsec < b.tv_nsec) then a
  else b

/-- `timespec_from_millis`: `{0, millis * 1e6}` normalized. -/
def timespec_from_millis (millis : Nat) : Timespec :=
  normalize ⟨0, (millis : Int) * 1000000⟩

/- Basic facts about normalization. -/

theorem normalizeNegLoopF_spec : ∀ (fuel : Nat) (s ns : Int),
    (-ns).toNat ≤ fuel * 1000000000 →
    (normalizeNegLoopF fuel s ns).2 ≥ 0 ∧
    (ns < 1000000000 → (normalizeNegLoopF fuel s ns).2 < 1000000000) ∧
    (normalizeNegLoopF fuel s ns).1 * 1000000000 + (normalizeNegLoopF fuel s ns).2 =
      s * 1000000000 + ns
  | 0, s, ns, h => by
    simp only [normalizeNegLoopF]
    exact ⟨by omega, by omega, trivial⟩
  | fuel + 1, s, ns, h => by
    by_cases hn : ns < 0
    · have ih := normalizeNegLoopF_spec fuel (s - 1) (ns + 1000000000) (by omega)
      simp only [normalizeNegLoopF, if_pos hn]
      omega
    · simp only [normalizeNegLoopF, if_neg hn]
      exact ⟨by omega, by omega, trivial⟩

/-- The budget covers every iteration of the first while loop, so
`normalizeNegLoop` satisfies the loop's postcondition. -/
theorem normalizeNegLoop_spec (s ns : Int) :
    (normalizeNegLoop s ns).2 ≥ 0 ∧
    (ns < 1000000000 → (normalizeNegLoop s ns).2 < 1000000000) ∧
    (normalizeNegLoop s ns).1 * 1000000000 + (normalizeNegLoop s ns).2 =
      s * 1000000000 + ns :=
  normalizeNegLoopF_spec (ns.natAbs / 1000000000 + 1) s ns (by omega)

theorem normalizePosLoopF_spec : ∀ (fuel : Nat) (s ns : Int),
    ns < ((fuel : Int) + 1) * 1000000000 →
    (0 ≤ ns → 0 ≤ (normalizePosLoopF fuel s ns).2 ∧
      (normalizePosLoopF fuel s ns).2 < 1000000000) ∧
    (normalizePosLoopF fuel s ns).1 * 1000000000 + (normalizePosLoopF fuel s ns).2 =
      s * 1000000000 + ns
  | 0, s, ns, h => by
    simp only [normalizePosLoopF]
    exact ⟨by omega, trivial⟩
  | fuel + 1, s, ns, h => by
    by_cases hn : ns ≥ 1000000000
    · have ih := normalizePosLoopF_spec fuel (s + 1) (ns - 1000000000) (by omega)
      simp only [normalizePosLoopF, if_pos hn]
      omega
    · simp only [normalizePosLoopF, if_neg hn]
      exact ⟨by omega, trivial⟩

/-- The budget covers every iteration of the second while loop, so
`normalizePosLoop` satisfies the loop's postcondition. -/
theorem normalizePosLoop_spec (s ns : Int) :
    (0 ≤ ns → 0 ≤ (normalizePosLoop s ns).2 ∧ (normalizePosLoop s ns).2 < 1000000000) ∧
    (normalizePosLoop s ns).1 * 1000000000 + (normalizePosLoop s ns).2 =
      s * 1000000000 + ns :=
  normalizePosLoopF_spec (ns.natAbs / 1000000000 + 1) s ns (by omega)

/-- `normalize` yields a nanosecond field in `[0, 1e9)`. -/
theorem normalize_nsec_range (ts : Timespec) :
    0 ≤ (normalize ts).tv_nsec ∧ (normalize ts).tv_nsec < 1000000000 := by
  unfold normalize
  have h1 := normalizeNegLoop_spec ts.tv_sec ts.tv_nsec
  have h2 := normalizePosLoop_spec (normalizeNegLoop ts.tv_sec ts.tv_nsec).1
      (normalizeNegLoop ts.tv_sec ts.tv_nsec).2
  simp only
  omega

/-- `normalize` preserves the total time represented. -/
theorem normalize_total (ts : Timespec) :
    (normalize ts).total = ts.total := by
  unfold normalize Timespec.total
  have h1 := normalizeNegLoop_spec ts.tv_sec ts.tv_nsec
  have h2 := normalizePosLoop_spec (normalizeNegLoop ts.tv_sec ts.tv_nsec).1
      (normalizeNegLoop ts.tv_sec ts.tv_nsec).2
  simp only
  omega

/-!
## Handle data model

The enums and the `serial::Timeout` struct are declared in headers
(`serial/serial.h`, `serial/impl/unix.h`) that are not part of `src/`;
they are reconstructed here from the spec's data model (§3) and from how
`unix.cc` reads their fields.
-/

/-- Modelled from the spec: the timeout profile (`serial::Timeout`, declared
in serial/serial.h which is missing from src/) — five non-negative integer
millisecond durations; field names follow the reads in
`SerialImpl::setTimeout`. -/
structure Timeout where
  inter_byte_timeout : Nat
  read_timeout_constant : Nat
  read_timeout_multiplier : Nat
  write_timeout_constant : Nat
  write_timeout_multiplier : Nat
  deriving Repr, DecidableEq

/-- The all-zero default profile (`serial::Timeout zero_timeout;` in the
constructor). -/
def Timeout.zero : Timeout := ⟨0, 0, 0, 0, 0⟩

/-- Byte sizes handled by `reconfigurePort` (spec §3: byte size ∈ {5,6,7,8}). -/
inductive bytesize_t
  | fivebits | sixbits | sevenbits | eightbits
  deriving Repr, DecidableEq

/-- Parity values handled by `reconfigurePort` (none / odd / even). -/
inductive parity_t
  | parity_none | parity_odd | parity_even
  deriving Repr, DecidableEq

/-- Stop-bit settings handled by `reconfigurePort`. -/
inductive stopbits_t
  | stopbits_one | stopbits_one_point_five | stopbits_two
  deriving Repr, DecidableEq

/-- Flow-control modes handled by `reconfigurePort`. -/
inductive flowcontrol_t
  | flowcontrol_none | flowcontrol_software | flowcontrol_hardware
  deriving Repr, DecidableEq

open bytesize_t parity_t stopbits_t flowcontrol_t

/-- The exceptions thrown by `unix.cc` (std::invalid_argument,
SerialException, PortNotOpenedException, IOException with either a message
or an errno). -/
inductive SerialError
  | invalidArgument (msg : String)
  | serialExc (msg : String)
  | portNotOpened (what : String)
  | ioExc (msg : String)
  | ioErrno (e : Nat)
  deriving Repr, DecidableEq

/-- The member state of `Serial::SerialImpl` (unix.h data members, as used
by unix.cc): port string, descriptor, open flag, the two flow-control
booleans, the port profile, the raw timeout profile and its five cached
timespec conversions. -/
structure SerialState where
  port_ : String
  fd_ : Int
  is_open_ : Bool
  xonxoff_ : Bool
  rtscts_ : Bool
  baudrate_ : Nat
  parity_ : parity_t
  bytesize_ : bytesize_t
  stopbits_ : stopbits_t
  flowcontrol_ : flowcontrol_t
  timeout_ : Timeout
  inter_byte_timeout_ : Timespec
  read_timeout_constant_ : Timespec
  read_timeout_multiplier_ : Timespec
  write_timeout_constant_ : Timespec
  write_timeout_multiplier_ : Timespec
  deriving Repr, DecidableEq

/-- Observable side effects on the OS descriptor. `tcsetattrCall` is the
configuration actually applied by `reconfigurePort` (the termios attribute
set derived from the resolved profile). -/
inductive Effect
  | osOpenCall (port : String)
  | osCloseCall (fd : Int)
  | tcsetattrCall (baud : Nat) (bs : bytesize_t) (sb : stopbits_t)
      (par : parity_t) (xonxoff rtscts : Bool)
  deriving Repr, DecidableEq

/-- Outcome of `::open` in `SerialImpl::open`, after the internal EINTR
retry recursion has run to completion: a descriptor, an ENFILE/EMFILE
condition, or another errno. -/
inductive OpenResult
  | fd (fd : Int)
  | tooMany
  | fail (e : Nat)
  deriving Repr, DecidableEq

/-- The OS responses the configuration path can observe (Linux build of
unix.cc): whether `tcgetattr` succeeds, whether the custom-baud
`ioctl(TIOCSSERIAL)` succeeds, the current errno on failure, and the
outcome of `::open`. -/
structure OsEnv where
  tcgetattr_ok : Bool
  custom_baud_ok : Bool
  errno : Nat
  open_result : OpenResult
  deriving Repr, DecidableEq

/-- Result of a stateful member call: the state of the object afterwards
(C++ exceptions leave the object in its mutated-so-far state), the OS
effects emitted, and the exception thrown, if any. -/
structure StepRes where
  state : SerialState
  effects : List Effect
  err : Option SerialError
  deriving Repr, DecidableEq

/-- The baud rates with a `Bxxx` case label in `reconfigurePort`'s switch
(each is guarded by an #ifdef; all are taken as available here). -/
def standardBauds : List Nat :=
  [0, 50, 75, 110, 134, 150, 200, 300, 600, 1200, 1800, 2400, 4800, 7200,
   9600, 14400, 19200, 28800, 57600, 76800, 38400, 115200, 128000, 153600,
   230400, 256000, 460800, 921600, 1000000, 1152000, 1500000, 2000000,
   2500000, 3000000, 3500000, 4000000]

/-- Whether the requested baud rate hits a standard case label (otherwise
the switch's default arm marks `custom_baud = true`). -/
def isStandardBaud (b : Nat) : Bool :=
  standardBauds.contains b

/-- `if (flowcontrol_ == flowcontrol_none) { xonxoff_ = false; rtscts_ =
false; }` — the first of the three non-exclusive `if`s in
`reconfigurePort`. -/
def applyFlowNone (s : SerialState) : SerialState :=
  if s.flowcontrol_ = flowcontrol_none then
    { s with xonxoff_ := false, rtscts_ := false }
  else s

/-- `if (flowcontrol_ == flowcontrol_software) { xonxoff_ = true; rtscts_
= false; }`. -/
def applyFlowSoftware (s : SerialState) : SerialState :=
  if s.flowcontrol_ = flowcontrol_software then
    { s with xonxoff_ := true, rtscts_ := false }
  else s

/-- `if (flowcontrol_ == flowcontrol_hardware) { xonxoff_ = false; rtscts_
= true; }`. -/
def applyFlowHardware (s : SerialState) : SerialState :=
  if s.flowcontrol_ = flowcontrol_hardware then
    { s with xonxoff_ := false, rtscts_ := true }
  else s

/-- `SerialImpl::reconfigurePort`: validate the descriptor, read the
current attributes, resolve the baud rate (standard constant or the Linux
custom-divisor ioctl), set byte size / stop bits / parity (every enum
value above is handled, so those `invalid_argument` throws are
unreachable), derive the two flow-control booleans from the enum with the
three `if`s above, and apply the attribute set (`tcsetattr`, result
ignored by the source). -/
def reconfigurePort (env : OsEnv) (s : SerialState) : StepRes :=
  if s.fd_ = -1 then
    ⟨s, [], some (.ioExc "Invalid file descriptor, is the serial port open?")⟩
  else if env.tcgetattr_ok = false then
    ⟨s, [], some (.ioExc "::tcgetattr")⟩
  else if isStandardBaud s.baudrate_ = false && env.custom_baud_ok = false then
    ⟨s, [], some (.ioErrno env.errno)⟩
  else
    ⟨applyFlowHardware (applyFlowSoftware (applyFlowNone s)),
     [.tcsetattrCall
        (applyFlowHardware (applyFlowSoftware (applyFlowNone s))).baudrate_
        (applyFlowHardware (applyFlowSoftware (applyFlowNone s))).bytesize_
        (applyFlowHardware (applyFlowSoftware (applyFlowNone s))).stopbits_
        (applyFlowHardware (applyFlowSoftware (applyFlowNone s))).parity_
        (applyFlowHardware (applyFlowSoftware (applyFlowNone s))).xonxoff_
        (applyFlowHardware (applyFlowSoftware (applyFlowNone s))).rtscts_],
     none⟩

/-- The tail of `SerialImpl::open` after the descriptor is acquired: run
`reconfigurePort` (its result `r` is passed in); if it threw, the
exception propagates with the object in `r`'s state; otherwise
`is_open_ = true` is set. -/
def openFinish (port : String) (r : StepRes) : StepRes :=
  match r.err with
  | some e => ⟨r.state, .osOpenCall port :: r.effects, some e⟩
  | none => ⟨{ r.state with is_open_ := true },
              .osOpenCall port :: r.effects, none⟩

/-- `SerialImpl::open`: reject an empty port or an already-open handle,
acquire the descriptor (EINTR is retried by recursion inside the source;
`env.open_result` is the post-retry outcome), configure, and mark open. -/
def openPort (env : OsEnv) (s : SerialState) : StepRes :=
  if s.port_.isEmpty then
    ⟨s, [], some (.invalidArgument "Empty port is invalid.")⟩
  else if s.is_open_ then
    ⟨s, [], some (.serialExc "Serial port already open.")⟩
  else
    match env.open_result with
    | .tooMany =>
      ⟨{ s with fd_ := -1 }, [.osOpenCall s.port_],
        some (.ioExc "Too many file handles open.")⟩
    | .fail e =>
      ⟨{ s with fd_ := -1 }, [.osOpenCall s.port_], some (.ioErrno e)⟩
    | .fd fd =>
      openFinish s.port_ (reconfigurePort env { s with fd_ := fd })

/-- `SerialImpl::close`: release the descriptor if held and clear the open
flag; throws nothing. -/
def closePort (s : SerialState) : SerialState × List Effect :=
  if s.is_open_ then
    if s.fd_ ≠ -1 then
      ({ s with fd_ := -1, is_open_ := false }, [.osCloseCall s.fd_])
    else
      ({ s with is_open_ := false }, [])
  else (s, [])

/-- `SerialImpl::isOpen`. -/
def isOpen (s : SerialState) : Bool :=
  s.is_open_

/-- `SerialImpl::setTimeout`: store the raw profile and cache the five
timespec conversions.  NOTE: the source (unix.cc line 707) computes
`read_timeout_multiplier_` from `timeout.read_timeout_constant`, not from
`timeout.read_timeout_multiplier`; this embedding reproduces that line
verbatim. -/
def setTimeout (timeout : Timeout) (s : SerialState) : SerialState :=
  { s with
    timeout_ := timeout
    inter_byte_timeout_ := timespec_from_millis timeout.inter_byte_timeout
    read_timeout_constant_ := timespec_from_millis timeout.read_timeout_constant
    read_timeout_multiplier_ := timespec_from_millis timeout.read_timeout_constant
    write_timeout_constant_ := timespec_from_millis timeout.write_timeout_constant
    write_timeout_multiplier_ := timespec_from_millis timeout.write_timeout_multiplier }

/-- `SerialImpl::getTimeout`: return the stored raw profile. -/
def getTimeout (s : SerialState) : Timeout :=
  s.timeout_

/-- `SerialImpl::setPort`: store the new identifier (nothing else). -/
def setPort (port : String) (s : SerialState) : StepRes :=
  ⟨{ s with port_ := port }, [], none⟩

/-- `SerialImpl::setBaudrate`: store, then reconfigure when open. -/
def setBaudrate (env : OsEnv) (baudrate : Nat) (s : SerialState) : StepRes :=
  if s.is_open_ = true then reconfigurePort env { s with baudrate_ := baudrate }
  else ⟨{ s with baudrate_ := baudrate }, [], none⟩

/-- `SerialImpl::setBytesize`: store, then reconfigure when open. -/
def setBytesize (env : OsEnv) (bytesize : bytesize_t) (s : SerialState) : StepRes :=
  if s.is_open_ = true then reconfigurePort env { s with bytesize_ := bytesize }
  else ⟨{ s with bytesize_ := bytesize }, [], none⟩

/-- `SerialImpl::setParity`: store, then reconfigure when open. -/
def setParity (env : OsEnv) (parity : parity_t) (s : SerialState) : StepRes :=
  if s.is_open_ = true then reconfigurePort env { s with parity_ := parity }
  else ⟨{ s with parity_ := parity }, [], none⟩

/-- `SerialImpl::setStopbits`: store, then reconfigure when open. -/
def setStopbits (env : OsEnv) (stopbits : stopbits_t) (s : SerialState) : StepRes :=
  if s.is_open_ = true then reconfigurePort env { s with stopbits_ := stopbits }
  else ⟨{ s with stopbits_ := stopbits }, [], none⟩

/-- `SerialImpl::setFlowcontrol`: store, then reconfigure when open. -/
def setFlowcontrol (env : OsEnv) (flowcontrol : flowcontrol_t) (s : SerialState) : StepRes :=
  if s.is_open_ = true then reconfigurePort env { s with flowcontrol_ := flowcontrol }
  else ⟨{ s with flowcontrol_ := flowcontrol }, [], none⟩

/-- The member-initializer list of the `SerialImpl` constructor: profile
fields stored, descriptor `-1`, not open, both flow-control booleans
false. -/
def mkInitState (port : String) (baudrate : Nat) (bytesize : bytesize_t)
    (parity : parity_t) (stopbits : stopbits_t) (flowcontrol : flowcontrol_t) :
    SerialState :=
  { port_ := port, fd_ := -1, is_open_ := false,
    xonxoff_ := false, rtscts_ := false,
    baudrate_ := baudrate, parity_ := parity, bytesize_ := bytesize,
    stopbits_ := stopbits, flowcontrol_ := flowcontrol,
    timeout_ := Timeout.zero,
    inter_byte_timeout_ := ⟨0, 0⟩,
    read_timeout_constant_ := ⟨0, 0⟩,
    read_timeout_multiplier_ := ⟨0, 0⟩,
    write_timeout_constant_ := ⟨0, 0⟩,
    write_timeout_multiplier_ := ⟨0, 0⟩ }

/-- The `SerialImpl` constructor, continued: member init list, then
`setTimeout(zero_timeout)`, then the conditional `open()`. -/
def SerialImpl_mk (env : OsEnv) (port : String) (baudrate : Nat)
    (bytesize : bytesize_t) (parity : parity_t) (stopbits : stopbits_t)
    (flowcontrol : flowcontrol_t) : StepRes :=
  if port.isEmpty = false then
    openPort env (setTimeout Timeout.zero
      (mkInitState port baudrate bytesize parity stopbits flowcontrol))
  else
    ⟨setTimeout Timeout.zero
      (mkInitState port baudrate bytesize parity stopbits flowcontrol), [], none⟩

/-!
## Transfer engine

`SerialImpl::read` and `SerialImpl::write` are modelled as trace
machines: a trace is the list of results the OS returns for the calls the
function makes, in program order (`timespec_now`, the `ioctl(TIOCINQ)`
inside `available()`, `pselect`, `::read` / `::write`).  The machine also
records the calls it makes to `pselect` (with the timeout argument it
passed) and to `::read`/`::write` (with the byte count it requested), so
that theorems can talk about how the readiness primitive was invoked.
-/

/-- Result of one `pselect` call: interrupted (`errno == EINTR`), another
error, timeout (`r == 0`), or ready (`r > 0`, with the flag saying whether
`FD_ISSET` holds for our descriptor). -/
inductive PselR
  | intr
  | err (e : Nat)
  | timeout
  | ready (isSet : Bool)
  deriving Repr, DecidableEq

/-- Result of the `ioctl(TIOCINQ)` inside `available()`: a queued-byte
count, or a failure with an errno. -/
inductive AvailR
  | cnt (n : Nat)
  | err (e : Nat)
  deriving Repr, DecidableEq

/-- One OS-call result consumed by the transfer loops, in program order. -/
inductive Ev
  | now (t : Timespec)
  | availRes (r : AvailR)
  | pselectRes (r : PselR)
  | xferRes (n : Int)
  deriving Repr, DecidableEq

/-- One OS call made by the transfer loops: a `pselect` with the timeout
argument passed to it, or a `::read`/`::write` with the byte count
requested. -/
inductive Call
  | pselectCall (timeout : Timespec)
  | xferCall (count : Nat)
  deriving Repr, DecidableEq

/-- Outcome of a read/write call: normal return with a byte count (both
the DONE and the TIMEOUT paths), a thrown exception, or a trace that does
not cover the calls the function makes (a modelling artifact, not a
program behavior). -/
inductive Outcome
  | ok (n : Nat)
  | error (e : SerialError)
  | outOfTrace
  deriving Repr, DecidableEq

/-- The `while (bytes_read < size)` loop of `SerialImpl::read`: compute
`timeout_remaining = timeout_endtime - timespec_now()`, take the `min`
with `inter_byte_timeout_`, call `pselect` with that bound, then dispatch
on the result exactly as the source does. -/
def readLoop (s : SerialState) (size : Nat) (timeout_endtime : Timespec)
    (bytes_read : Nat) (evs : List Ev) : Outcome × List Call :=
  if bytes_read < size then
    match evs with
    | .now t :: .pselectRes r :: rest =>
      let timeout_remaining := timespecSub timeout_endtime t
      let timeout := timespecMin timeout_remaining s.inter_byte_timeout_
      let c := Call.pselectCall timeout
      match r with
      | .intr =>
        let res := readLoop s size timeout_endtime bytes_read rest
        (res.1, c :: res.2)
      | .err e => (.error (.ioErrno e), [c])
      | .timeout => (.ok bytes_read, [c])
      | .ready isSet =>
        if isSet then
          match rest with
          | .xferRes n :: rest2 =>
            let c2 := Call.xferCall (size - bytes_read)
            if n < 1 then
              (.error (.serialExc
                "device reports readiness to read but returned no data (device disconnected?)"),
               [c, c2])
            else
              let br := bytes_read + n.toNat
              if br = size then (.ok br, [c, c2])
              else if br < size then
                let res := readLoop s size timeout_endtime br rest2
                (res.1, c :: c2 :: res.2)
              else
                (.error (.serialExc
                  "read over read, too many bytes where read, this should not happen, might be a logical error!"),
                 [c, c2])
          | _ => (.outOfTrace, [c])
        else
          (.error (.ioExc
            "pselect reports ready to read, but our fd is not in the list, this should not happen!"),
           [c])
    | _ => (.outOfTrace, [])
  else (.ok bytes_read, [])

/-- The absolute expiry point computed at the start of `SerialImpl::read`:
`timespec_now() + read_timeout_constant_ + (read_timeout_multiplier_ *
size)`. -/
def readDeadline (s : SerialState) (t0 : Timespec) (size : Nat) : Timespec :=
  timespecAdd (timespecAdd t0 s.read_timeout_constant_)
    (timespecMul s.read_timeout_multiplier_ size)

/-- `SerialImpl::read`: throw if not open; compute the deadline; if
`available() > 0`, drain with one non-blocking `::read` first; then run
the loop. -/
def readImpl (s : SerialState) (size : Nat) (evs : List Ev) :
    Outcome × List Call :=
  if s.is_open_ = false then (.error (.portNotOpened "Serial::read"), [])
  else
    match evs with
    | .now t0 :: .availRes ar :: rest =>
      let timeout_endtime := readDeadline s t0 size
      match ar with
      | .err e => (.error (.ioErrno e), [])
      | .cnt avail =>
        if avail > 0 then
          match rest with
          | .xferRes n :: rest2 =>
            let c := Call.xferCall size
            if n < 1 then
              (.error (.serialExc
                "device reports readiness to read but returned no data (device disconnected?)"),
               [c])
            else
              let res := readLoop s size timeout_endtime n.toNat rest2
              (res.1, c :: res.2)
          | _ => (.outOfTrace, [])
        else
          readLoop s size timeout_endtime 0 rest
    | _ => (.outOfTrace, [])

/-- The `while (bytes_written < length)` loop of `SerialImpl::write`:
compute `timeout_remaining = timeout_endtime - timespec_now()` (no
inter-byte component), call `pselect` with that bound, then dispatch on
the result exactly as the source does. -/
def writeLoop (s : SerialState) (length : Nat) (timeout_endtime : Timespec)
    (bytes_written : Nat) (evs : List Ev) : Outcome × List Call :=
  if bytes_written < length then
    match evs with
    | .now t :: .pselectRes r :: rest =>
      let timeout_remaining := timespecSub timeout_endtime t
      let c := Call.pselectCall timeout_remaining
      match r with
      | .intr =>
        let res := writeLoop s length timeout_endtime bytes_written rest
        (res.1, c :: res.2)
      | .err e => (.error (.ioErrno e), [c])
      | .timeout => (.ok bytes_written, [c])
      | .ready isSet =>
        if isSet then
          match rest with
          | .xferRes n :: rest2 =>
            let c2 := Call.xferCall (length - bytes_written)
            if n < 1 then
              (.error (.serialExc
                "device reports readiness to write but returned no data (device disconnected?)"),
               [c, c2])
            else
              let bw := bytes_written + n.toNat
              if bw = length then (.ok bw, [c, c2])
              else if bw < length then
                let res := writeLoop s length timeout_endtime bw rest2
                (res.1, c :: c2 :: res.2)
              else
                (.error (.serialExc
                  "write over wrote, too many bytes where written, this should not happen, might be a logical error!"),
                 [c, c2])
          | _ => (.outOfTrace, [c])
        else
          (.error (.ioExc
            "select reports ready to write, but our fd is not in the list, this should not happen!"),
           [c])
    | _ => (.outOfTrace, [])
  else (.ok bytes_written, [])

/-- The absolute expiry point computed at the start of
`SerialImpl::write`: `timespec_now() + write_timeout_constant_ +
(write_timeout_multiplier_ * length)`. -/
def writeDeadline (s : SerialState) (t0 : Timespec) (length : Nat) : Timespec :=
  timespecAdd (timespecAdd t0 s.write_timeout_constant_)
    (timespecMul s.write_timeout_multiplier_ length)

/-- `SerialImpl::write`: throw if not open; compute the deadline; run the
loop (no drain phase). -/
def writeImpl (s : SerialState) (length : Nat) (evs : List Ev) :
    Outcome × List Call :=
  if s.is_open_ = false then (.error (.portNotOpened "Serial::write"), [])
  else
    match evs with
    | .now t0 :: rest =>
      writeLoop s length (writeDeadline s t0 length) 0 rest
    | _ => (.outOfTrace, [])

/-!
## Reachable-state machine

For the flow-control invariant the handle is driven by an arbitrary
script of member calls, each with its own OS responses.
-/

/-- A member call that mutates the handle. -/
inductive Op
  | opOpen
  | opClose
  | opSetPort (p : String)
  | opSetBaudrate (b : Nat)
  | opSetBytesize (bs : bytesize_t)
  | opSetParity (p : parity_t)
  | opSetStopbits (sb : stopbits_t)
  | opSetFlowcontrol (fc : flowcontrol_t)
  | opSetTimeout (t : Timeout)
  | opReconfigure
  deriving Repr, DecidableEq

/-- Dispatch one member call against the handle state. -/
def step (env : OsEnv) (op : Op) (s : SerialState) : StepRes :=
  match op with
  | .opOpen => openPort env s
  | .opClose => ⟨(closePort s).1, (closePort s).2, none⟩
  | .opSetPort p => setPort p s
  | .opSetBaudrate b => setBaudrate env b s
  | .opSetBytesize bs => setBytesize env bs s
  | .opSetParity p => setParity env p s
  | .opSetStopbits sb => setStopbits env sb s
  | .opSetFlowcontrol fc => setFlowcontrol env fc s
  | .opSetTimeout t => ⟨setTimeout t s, [], none⟩
  | .opReconfigure => reconfigurePort env s

/-- Run a script of member calls; a thrown exception leaves the object in
its mutated-so-far state (the caller may catch and continue). -/
def runOps (script : List (OsEnv × Op)) (s : SerialState) : SerialState :=
  match script with
  | [] => s
  | (env, op) :: rest => runOps rest (step env op s).state

/-- The software / hardware flow-control booleans are never both set. -/
def flowBoolsExclusive (s : SerialState) : Bool :=
  !(s.xonxoff_ && s.rtscts_)

/-- A concrete open handle (descriptor 3, default 8N1 profile, all-zero
timeout profile) used to exercise the model at specific inputs. -/
def sampleOpenState : SerialState :=
  { port_ := "/dev/ttyUSB0", fd_ := 3, is_open_ := true,
    xonxoff_ := false, rtscts_ := false,
    baudrate_ := 9600, parity_ := parity_none, bytesize_ := eightbits,
    stopbits_ := stopbits_one, flowcontrol_ := flowcontrol_none,
    timeout_ := Timeout.zero,
    inter_byte_timeout_ := ⟨0, 0⟩, read_timeout_constant_ := ⟨0, 0⟩,
    read_timeout_multiplier_ := ⟨0, 0⟩, write_timeout_constant_ := ⟨0, 0⟩,
    write_timeout_multiplier_ := ⟨0, 0⟩ }

/-!
## Theorems for the specification claims
-/

/-- C7: for every `(s, ns)` timespec — in particular one with `ns` outside
`[0, 1e9)` — `normalize` yields nanoseconds in `[0, 1e9)` while preserving
the total time `s*1e9 + ns`; and the `+`, `-`, `*` operators each
normalize their result, so (absent overflow, i.e. over unbounded
integers) they agree with exact total-time arithmetic. -/
theorem duration_arithmetic_normalized_and_exact :
    (∀ ts : Timespec,
      0 ≤ (normalize ts).tv_nsec ∧ (normalize ts).tv_nsec < 1000000000 ∧
      (normalize ts).total = ts.total) ∧
    (∀ a b : Timespec,
      (timespecAdd a b).total = a.total + b.total ∧
      0 ≤ (timespecAdd a b).tv_nsec ∧ (timespecAdd a b).tv_nsec < 1000000000) ∧
    (∀ a b : Timespec,
      (timespecSub a b).total = a.total - b.total ∧
      0 ≤ (timespecSub a b).tv_nsec ∧ (timespecSub a b).tv_nsec < 1000000000) ∧
    (∀ (a : Timespec) (m : Nat),
      (timespecMul a m).total = a.total * m ∧
      0 ≤ (timespecMul a m).tv_nsec ∧ (timespecMul a m).tv_nsec < 1000000000) := by
  refine ⟨fun ts => ⟨(normalize_nsec_range ts).1, (normalize_nsec_range ts).2,
      normalize_total ts⟩, fun a b => ?_, fun a b => ?_, fun a m => ?_⟩
  · have h := normalize_total ⟨a.tv_sec + b.tv_sec, a.tv_nsec + b.tv_nsec⟩
    have h2 := normalize_nsec_range ⟨a.tv_sec + b.tv_sec, a.tv_nsec + b.tv_nsec⟩
    refine ⟨?_, h2.1, h2.2⟩
    rw [timespecAdd, h]
    simp only [Timespec.total]
    ring
  · have h := normalize_total ⟨a.tv_sec - b.tv_sec, a.tv_nsec - b.tv_nsec⟩
    have h2 := normalize_nsec_range ⟨a.tv_sec - b.tv_sec, a.tv_nsec - b.tv_nsec⟩
    refine ⟨?_, h2.1, h2.2⟩
    rw [timespecSub, h]
    simp only [Timespec.total]
    ring
  · have h := normalize_total ⟨a.tv_sec * (m : Int), a.tv_nsec * (m : Int)⟩
    have h2 := normalize_nsec_range ⟨a.tv_sec * (m : Int), a.tv_nsec * (m : Int)⟩
    refine ⟨?_, h2.1, h2.2⟩
    rw [timespecMul, h]
    simp only [Timespec.total]
    ring

/-- C10: `getTimeout` after `setTimeout` returns the raw profile verbatim,
for every profile and every prior handle state; the cached timespec
conversions do not feed back into it. -/
theorem setTimeout_getTimeout_roundtrip (tp : Timeout) (s : SerialState) :
    getTimeout (setTimeout tp s) = tp :=
  rfl

/-- C8: `close` is idempotent — after a `close` the handle reports not
open; a second `close` changes nothing and performs no OS call (and
`close` throws nothing: its result type carries no error); and `close` on
an open handle with a live descriptor releases it and clears the open
flag. -/
theorem close_idempotent (s : SerialState) :
    isOpen (closePort s).1 = false ∧
    closePort (closePort s).1 = ((closePort s).1, []) ∧
    (s.is_open_ = true → s.fd_ ≠ -1 →
      closePort s = ({ s with fd_ := -1, is_open_ := false },
        [.osCloseCall s.fd_])) := by
  unfold closePort isOpen
  by_cases h : s.is_open_ = true
  · by_cases hfd : s.fd_ ≠ -1 <;> simp [h, hfd]
  · simp at h
    simp [h]

/-- Witness for C8 at the concrete open handle. -/
theorem close_idempotent_witness :
    isOpen (closePort sampleOpenState).1 = false ∧
    closePort (closePort sampleOpenState).1 = ((closePort sampleOpenState).1, []) ∧
    closePort sampleOpenState = ({ sampleOpenState with fd_ := -1, is_open_ := false },
      [.osCloseCall sampleOpenState.fd_]) :=
  ⟨(close_idempotent sampleOpenState).1, (close_idempotent sampleOpenState).2.1,
    (close_idempotent sampleOpenState).2.2 rfl (by decide)⟩

/-- C1 (code bug): `setTimeout` caches
`read_timeout_multiplier_ = timespec_from_millis(timeout.read_timeout_constant)`
(unix.cc line 707), so with read_timeout_constant = 100 ms and
read_timeout_multiplier = 0 the deadline of a 10-byte read is
now + 1.1 s, not now + 0.1 s as the constant-plus-multiplier-times-size
formula requires; the cached multiplier equals the conversion of the
constant field and differs from the conversion of the multiplier field. -/
theorem read_deadline_uses_constant_as_multiplier :
    readDeadline (setTimeout ⟨0, 100, 0, 0, 0⟩ sampleOpenState) ⟨0, 0⟩ 10 =
      ⟨1, 100000000⟩ ∧
    (setTimeout ⟨0, 100, 0, 0, 0⟩ sampleOpenState).read_timeout_multiplier_ =
      timespec_from_millis 100 ∧
    (setTimeout ⟨0, 100, 0, 0, 0⟩ sampleOpenState).read_timeout_multiplier_ ≠
      timespec_from_millis 0 := by
  refine ⟨by decide, by decide, by decide⟩

/-- C2: when `pselect` reports zero ready descriptors the read loop and
the write loop both return normally (`Outcome.ok`) with the bytes
transferred so far — which may be 0 or a partial count — rather than
raising; the only raising paths are the error dispositions
(non-EINTR `pselect` failure, zero-byte transfer after readiness,
over-transfer, descriptor missing from the ready set). -/
theorem wait_timeout_returns_partial_count
    (s : SerialState) (size length bytes_read bytes_written : Nat)
    (endR endW t u : Timespec) (restR restW : List Ev)
    (hr : bytes_read < size) (hw : bytes_written < length) :
    readLoop s size endR bytes_read (.now t :: .pselectRes .timeout :: restR) =
      (.ok bytes_read,
        [.pselectCall (timespecMin (timespecSub endR t) s.inter_byte_timeout_)]) ∧
    writeLoop s length endW bytes_written (.now u :: .pselectRes .timeout :: restW) =
      (.ok bytes_written, [.pselectCall (timespecSub endW u)]) := by
  constructor
  · rw [readLoop]
    simp [hr]
  · rw [writeLoop]
    simp [hw]

/-- Witness for C2 at a concrete partial transfer. -/
theorem wait_timeout_returns_partial_count_witness :
    readLoop sampleOpenState 4 ⟨1, 0⟩ 1 [.now ⟨0, 0⟩, .pselectRes .timeout] =
      (.ok 1, [.pselectCall
        (timespecMin (timespecSub ⟨1, 0⟩ ⟨0, 0⟩) sampleOpenState.inter_byte_timeout_)]) ∧
    writeLoop sampleOpenState 4 ⟨1, 0⟩ 2 [.now ⟨0, 0⟩, .pselectRes .timeout] =
      (.ok 2, [.pselectCall (timespecSub ⟨1, 0⟩ ⟨0, 0⟩)]) :=
  wait_timeout_returns_partial_count sampleOpenState 4 4 1 2 ⟨1, 0⟩ ⟨1, 0⟩
    ⟨0, 0⟩ ⟨0, 0⟩ [] [] (by decide) (by decide)

/-- C3 counterexample: with `inter_byte_timeout = 0` and a total deadline
2 s away, the wait bound handed to `pselect` is `{0, 0}` — the poll
returns immediately with 0 bytes even though the total deadline has not
elapsed, so a byte that would arrive later (still before the deadline)
is not collected.  The claim that inter_byte_limit = 0 leaves the read
bounded only by the total deadline is false of the code. -/
theorem interbyte_zero_cuts_read_short :
    readImpl (setTimeout ⟨0, 1000, 0, 0, 0⟩ sampleOpenState) 1
      [.now ⟨0, 0⟩, .availRes (.cnt 0), .now ⟨0, 0⟩, .pselectRes .timeout] =
      (.ok 0, [.pselectCall ⟨0, 0⟩]) ∧
    (timespecSub (readDeadline (setTimeout ⟨0, 1000, 0, 0, 0⟩ sampleOpenState)
        ⟨0, 0⟩ 1) ⟨0, 0⟩).total > 0 := by
  exact ⟨by decide, by decide⟩

/-- C3 as amended: with a profile whose `inter_byte_timeout` is 0 the
cached inter-byte timespec is `{0, 0}`, so on every loop iteration with
non-negative remaining time the wait bound `min(deadline - now,
inter_byte_timeout_)` collapses to zero: `pselect` polls without blocking
and, when no data is immediately available, the read returns the bytes
collected so far regardless of how much total deadline remains. -/
theorem interbyte_zero_polls_without_blocking
    (tp : Timeout) (s : SerialState) (size bytes_read : Nat)
    (endtime t : Timespec) (rest : List Ev)
    (hz : tp.inter_byte_timeout = 0)
    (hbr : bytes_read < size)
    (hsec : 0 ≤ (timespecSub endtime t).tv_sec) :
    readLoop (setTimeout tp s) size endtime bytes_read
      (.now t :: .pselectRes .timeout :: rest) =
      (.ok bytes_read, [.pselectCall ⟨0, 0⟩]) := by
  have hib : (setTimeout tp s).inter_byte_timeout_ =
      timespec_from_millis tp.inter_byte_timeout := rfl
  rw [hz] at hib
  have h0 : timespec_from_millis 0 = ⟨0, 0⟩ := by decide
  rw [h0] at hib
  have hnr : 0 ≤ (timespecSub endtime t).tv_nsec ∧
      (timespecSub endtime t).tv_nsec < 1000000000 :=
    normalize_nsec_range ⟨endtime.tv_sec - t.tv_sec, endtime.tv_nsec - t.tv_nsec⟩
  have hmin : timespecMin (timespecSub endtime t)
      (setTimeout tp s).inter_byte_timeout_ = ⟨0, 0⟩ := by
    rw [hib]
    unfold timespecMin
    rw [if_neg]
    push_neg
    have hz0 : (⟨0, 0⟩ : Timespec).tv_sec = 0 := rfl
    have hz1 : (⟨0, 0⟩ : Timespec).tv_nsec = 0 := rfl
    constructor
    · omega
    · intro _
      omega
  rw [readLoop]
  simp [hbr, hmin]

/-- Witness for the amended C3 at a concrete input: 1000 ms constant,
zero inter-byte limit, 2 s of deadline remaining. -/
theorem interbyte_zero_polls_without_blocking_witness :
    readLoop (setTimeout ⟨0, 1000, 0, 0, 0⟩ sampleOpenState) 1 ⟨2, 0⟩ 0
      [.now ⟨0, 0⟩, .pselectRes .timeout] = (.ok 0, [.pselectCall ⟨0, 0⟩]) :=
  interbyte_zero_polls_without_blocking ⟨0, 1000, 0, 0, 0⟩ sampleOpenState 1 0
    ⟨2, 0⟩ ⟨0, 0⟩ [] (by decide) (by decide) (by decide)

/-- C4 counterexample: with an all-zero timeout profile and the clock 5 s
past the deadline, the read loop does not transition to TIMEOUT before
the wait: it invokes `pselect` with the already-negative remaining time
`{-5, 0}` — refuting both "whenever remaining ≤ 0 the call transitions to
TIMEOUT instead of invoking the readiness primitive" and "the readiness
primitive is only invoked with a strictly positive remaining time". -/
theorem pselect_invoked_with_expired_remaining :
    readImpl sampleOpenState 1
      [.now ⟨0, 0⟩, .availRes (.cnt 0), .now ⟨5, 0⟩, .pselectRes .timeout] =
      (.ok 0, [.pselectCall ⟨-5, 0⟩]) ∧
    Timespec.total ⟨-5, 0⟩ ≤ 0 := by
  exact ⟨by decide, by decide⟩

/-- C4 as amended: on every iteration the wait bound is
`min(deadline - now, inter_byte_timeout_)` for read and `deadline - now`
for write, and it is handed to `pselect` unconditionally — there is no
`remaining ≤ 0` short-circuit; the loop reaches TIMEOUT only when
`pselect` itself reports zero ready descriptors. -/
theorem wait_bound_passed_unconditionally
    (s : SerialState) (size length bytes_read bytes_written : Nat)
    (endR endW t u : Timespec) (r q : PselR) (restR restW : List Ev)
    (hr : bytes_read < size) (hw : bytes_written < length) :
    (readLoop s size endR bytes_read
        (.now t :: .pselectRes r :: restR)).2.head? =
      some (.pselectCall (timespecMin (timespecSub endR t) s.inter_byte_timeout_)) ∧
    (writeLoop s length endW bytes_written
        (.now u :: .pselectRes q :: restW)).2.head? =
      some (.pselectCall (timespecSub endW u)) := by
  constructor
  · rw [readLoop]
    cases r with
    | intr => simp [hr]
    | err e => simp [hr]
    | timeout => simp [hr]
    | ready isSet =>
      cases isSet with
      | false => simp [hr]
      | true =>
        cases restR with
        | nil => simp [hr]
        | cons e rest2 =>
          cases e <;> simp [hr] <;> split_ifs <;> simp
  · rw [writeLoop]
    cases q with
    | intr => simp [hw]
    | err e => simp [hw]
    | timeout => simp [hw]
    | ready isSet =>
      cases isSet with
      | false => simp [hw]
      | true =>
        cases restW with
        | nil => simp [hw]
        | cons e rest2 =>
          cases e <;> simp [hw] <;> split_ifs <;> simp

/-- Witness for the amended C4: the bound is passed even when negative. -/
theorem wait_bound_passed_unconditionally_witness :
    (readLoop sampleOpenState 1 ⟨0, 0⟩ 0
        [.now ⟨5, 0⟩, .pselectRes .timeout]).2.head? =
      some (.pselectCall
        (timespecMin (timespecSub ⟨0, 0⟩ ⟨5, 0⟩) sampleOpenState.inter_byte_timeout_)) ∧
    (writeLoop sampleOpenState 1 ⟨0, 0⟩ 0
        [.now ⟨5, 0⟩, .pselectRes .timeout]).2.head? =
      some (.pselectCall (timespecSub ⟨0, 0⟩ ⟨5, 0⟩)) :=
  wait_bound_passed_unconditionally sampleOpenState 1 1 0 0 ⟨0, 0⟩ ⟨0, 0⟩
    ⟨5, 0⟩ ⟨5, 0⟩ .timeout .timeout [] [] (by decide) (by decide)

/-- C5 counterexample: `setPort` on an open handle stores the identifier
and performs no OS call at all — it does not reapply the port
configuration — refuting the claim that every listed mutator reapplies
configuration while open. -/
theorem setPort_does_not_reconfigure :
    isOpen sampleOpenState = true ∧
    setPort "/dev/ttyUSB1" sampleOpenState =
      ⟨{ sampleOpenState with port_ := "/dev/ttyUSB1" }, [], none⟩ := by
  exact ⟨rfl, rfl⟩

/-- C5 as amended: the baud-rate, byte-size, parity, stop-bits and
flow-control setters on an open handle store the new value and
immediately rerun `reconfigurePort`; the identifier setter and the
timeout setter only store (no OS call, no reconfiguration). -/
theorem setters_reapply_configuration_when_open
    (env : OsEnv) (s : SerialState) (h : s.is_open_ = true)
    (b : Nat) (bs : bytesize_t) (p : parity_t) (sb : stopbits_t)
    (fc : flowcontrol_t) (pt : String) (tp : Timeout) :
    setBaudrate env b s = reconfigurePort env { s with baudrate_ := b } ∧
    setBytesize env bs s = reconfigurePort env { s with bytesize_ := bs } ∧
    setParity env p s = reconfigurePort env { s with parity_ := p } ∧
    setStopbits env sb s = reconfigurePort env { s with stopbits_ := sb } ∧
    setFlowcontrol env fc s = reconfigurePort env { s with flowcontrol_ := fc } ∧
    setPort pt s = ⟨{ s with port_ := pt }, [], none⟩ ∧
    step env (.opSetTimeout tp) s = ⟨setTimeout tp s, [], none⟩ := by
  refine ⟨?_, ?_, ?_, ?_, ?_, rfl, rfl⟩ <;>
    simp [setBaudrate, setBytesize, setParity, setStopbits, setFlowcontrol, h]

/-- Witness for the amended C5 at a concrete open handle. -/
theorem setters_reapply_configuration_when_open_witness :
    setBaudrate ⟨true, true, 0, .fd 3⟩ 115200 sampleOpenState =
      reconfigurePort ⟨true, true, 0, .fd 3⟩
        { sampleOpenState with baudrate_ := 115200 } ∧
    setBytesize ⟨true, true, 0, .fd 3⟩ sevenbits sampleOpenState =
      reconfigurePort ⟨true, true, 0, .fd 3⟩
        { sampleOpenState with bytesize_ := sevenbits } ∧
    setParity ⟨true, true, 0, .fd 3⟩ parity_even sampleOpenState =
      reconfigurePort ⟨true, true, 0, .fd 3⟩
        { sampleOpenState with parity_ := parity_even } ∧
    setStopbits ⟨true, true, 0, .fd 3⟩ stopbits_two sampleOpenState =
      reconfigurePort ⟨true, true, 0, .fd 3⟩
        { sampleOpenState with stopbits_ := stopbits_two } ∧
    setFlowcontrol ⟨true, true, 0, .fd 3⟩ flowcontrol_hardware sampleOpenState =
      reconfigurePort ⟨true, true, 0, .fd 3⟩
        { sampleOpenState with flowcontrol_ := flowcontrol_hardware } ∧
    setPort "/dev/ttyS1" sampleOpenState =
      ⟨{ sampleOpenState with port_ := "/dev/ttyS1" }, [], none⟩ ∧
    step ⟨true, true, 0, .fd 3⟩ (.opSetTimeout ⟨1, 2, 3, 4, 5⟩) sampleOpenState =
      ⟨setTimeout ⟨1, 2, 3, 4, 5⟩ sampleOpenState, [], none⟩ :=
  setters_reapply_configuration_when_open ⟨true, true, 0, .fd 3⟩
    sampleOpenState rfl 115200 sevenbits parity_even stopbits_two
    flowcontrol_hardware "/dev/ttyS1" ⟨1, 2, 3, 4, 5⟩

/-- C6 counterexample: constructing with a non-empty identifier does not
leave the handle closed — the constructor calls `open()` itself, so the
handle holds descriptor 3 and reports open with no explicit `open()`
call, refuting "for every constructor argument combination the handle
holds no OS descriptor and is not open until open() is explicitly
called". -/
theorem constructor_with_nonempty_port_autoopens :
    (SerialImpl_mk ⟨true, true, 0, .fd 3⟩ "/dev/ttyUSB0" 9600 eightbits
      parity_none stopbits_one flowcontrol_none).state.is_open_ = true ∧
    (SerialImpl_mk ⟨true, true, 0, .fd 3⟩ "/dev/ttyUSB0" 9600 eightbits
      parity_none stopbits_one flowcontrol_none).state.fd_ = 3 ∧
    (SerialImpl_mk ⟨true, true, 0, .fd 3⟩ "/dev/ttyUSB0" 9600 eightbits
      parity_none stopbits_one flowcontrol_none).effects ≠ [] := by
  exact ⟨by decide, by decide, by decide⟩

/-- C6 as amended: with an empty identifier the constructor only stores
the profile fields (descriptor -1, not open, no OS effect); with a
non-empty identifier it stores the fields and then immediately invokes
`open()` on the stored state. -/
theorem constructor_stores_then_conditionally_opens
    (env : OsEnv) (port : String) (baudrate : Nat) (bs : bytesize_t)
    (par : parity_t) (sb : stopbits_t) (fc : flowcontrol_t) :
    (port.isEmpty = true →
      SerialImpl_mk env port baudrate bs par sb fc =
        ⟨setTimeout Timeout.zero (mkInitState port baudrate bs par sb fc),
          [], none⟩ ∧
      (setTimeout Timeout.zero (mkInitState port baudrate bs par sb fc)).is_open_
        = false ∧
      (setTimeout Timeout.zero (mkInitState port baudrate bs par sb fc)).fd_
        = -1) ∧
    (port.isEmpty = false →
      SerialImpl_mk env port baudrate bs par sb fc =
        openPort env
          (setTimeout Timeout.zero (mkInitState port baudrate bs par sb fc))) := by
  constructor
  · intro hp
    refine ⟨?_, rfl, rfl⟩
    rw [SerialImpl_mk, if_neg]
    simp [hp]
  · intro hp
    rw [SerialImpl_mk, if_pos hp]

/-- Witness for the amended C6 at an empty and a non-empty identifier. -/
theorem constructor_stores_then_conditionally_opens_witness :
    (SerialImpl_mk ⟨true, true, 0, .fd 3⟩ "" 9600 eightbits parity_none
        stopbits_one flowcontrol_none =
      ⟨setTimeout Timeout.zero (mkInitState "" 9600 eightbits parity_none
        stopbits_one flowcontrol_none), [], none⟩ ∧
      (setTimeout Timeout.zero (mkInitState "" 9600 eightbits parity_none
        stopbits_one flowcontrol_none)).is_open_ = false ∧
      (setTimeout Timeout.zero (mkInitState "" 9600 eightbits parity_none
        stopbits_one flowcontrol_none)).fd_ = -1) ∧
    SerialImpl_mk ⟨true, true, 0, .fd 3⟩ "/dev/ttyUSB0" 9600 eightbits
        parity_none stopbits_one flowcontrol_none =
      openPort ⟨true, true, 0, .fd 3⟩
        (setTimeout Timeout.zero (mkInitState "/dev/ttyUSB0" 9600 eightbits
          parity_none stopbits_one flowcontrol_none)) :=
  ⟨(constructor_stores_then_conditionally_opens ⟨true, true, 0, .fd 3⟩ ""
      9600 eightbits parity_none stopbits_one flowcontrol_none).1 (by decide),
   (constructor_stores_then_conditionally_opens ⟨true, true, 0, .fd 3⟩
      "/dev/ttyUSB0" 9600 eightbits parity_none stopbits_one
      flowcontrol_none).2 (by decide)⟩

/- Helper lemmas for the flow-control invariant: every path that writes
`xonxoff_` / `rtscts_` is the three-`if` block of `reconfigurePort`, and
its output always has at most one of them set. -/

theorem applyFlow_exclusive (s : SerialState) :
    flowBoolsExclusive
      (applyFlowHardware (applyFlowSoftware (applyFlowNone s))) = true := by
  cases h : s.flowcontrol_ <;>
    simp [applyFlowNone, applyFlowSoftware, applyFlowHardware,
      flowBoolsExclusive, h]

theorem reconfigurePort_flow (env : OsEnv) (s : SerialState)
    (h : flowBoolsExclusive s = true) :
    flowBoolsExclusive (reconfigurePort env s).state = true := by
  unfold reconfigurePort
  split_ifs <;> first | exact h | exact applyFlow_exclusive s

theorem openFinish_flow (port : String) (r : StepRes)
    (h : flowBoolsExclusive r.state = true) :
    flowBoolsExclusive (openFinish port r).state = true := by
  unfold openFinish
  cases herr : r.err with
  | some e => exact h
  | none => exact h

theorem openPort_flow (env : OsEnv) (s : SerialState)
    (h : flowBoolsExclusive s = true) :
    flowBoolsExclusive (openPort env s).state = true := by
  unfold openPort
  split_ifs
  · exact h
  · exact h
  · cases henv : env.open_result with
    | tooMany => exact h
    | fail e => exact h
    | fd fd =>
      exact openFinish_flow s.port_ _
        (reconfigurePort_flow env { s with fd_ := fd } h)

theorem closePort_flow (s : SerialState) (h : flowBoolsExclusive s = true) :
    flowBoolsExclusive (closePort s).1 = true := by
  unfold closePort
  split_ifs <;> exact h

theorem step_flow (env : OsEnv) (op : Op) (s : SerialState)
    (h : flowBoolsExclusive s = true) :
    flowBoolsExclusive (step env op s).state = true := by
  cases op with
  | opOpen => exact openPort_flow env s h
  | opClose => exact closePort_flow s h
  | opSetPort p => exact h
  | opSetBaudrate b =>
    show flowBoolsExclusive (setBaudrate env b s).state = true
    unfold setBaudrate
    split_ifs
    · exact reconfigurePort_flow env _ h
    · exact h
  | opSetBytesize bs =>
    show flowBoolsExclusive (setBytesize env bs s).state = true
    unfold setBytesize
    split_ifs
    · exact reconfigurePort_flow env _ h
    · exact h
  | opSetParity p =>
    show flowBoolsExclusive (setParity env p s).state = true
    unfold setParity
    split_ifs
    · exact reconfigurePort_flow env _ h
    · exact h
  | opSetStopbits sb =>
    show flowBoolsExclusive (setStopbits env sb s).state = true
    unfold setStopbits
    split_ifs
    · exact reconfigurePort_flow env _ h
    · exact h
  | opSetFlowcontrol fc =>
    show flowBoolsExclusive (setFlowcontrol env fc s).state = true
    unfold setFlowcontrol
    split_ifs
    · exact reconfigurePort_flow env _ h
    · exact h
  | opSetTimeout t => exact h
  | opReconfigure => exact reconfigurePort_flow env s h

theorem runOps_flow (script : List (OsEnv × Op)) :
    ∀ s : SerialState, flowBoolsExclusive s = true →
    flowBoolsExclusive (runOps script s) = true := by
  induction script with
  | nil => intro s h; exact h
  | cons p rest ih =>
    intro s h
    obtain ⟨env, op⟩ := p
    exact ih _ (step_flow env op s h)

theorem SerialImpl_mk_flow (env : OsEnv) (port : String) (baudrate : Nat)
    (bs : bytesize_t) (par : parity_t) (sb : stopbits_t)
    (fc : flowcontrol_t) :
    flowBoolsExclusive (SerialImpl_mk env port baudrate bs par sb fc).state
      = true := by
  unfold SerialImpl_mk
  split_ifs with hp
  · exact openPort_flow env _ rfl
  · rfl

/-- C9: in every reachable handle state — freshly constructed (with any
argument combination and OS responses) and after any script of open /
close / setter / reconfigure calls — the software (`xonxoff_`) and
hardware (`rtscts_`) flow-control booleans are never both true. -/
theorem flow_control_booleans_never_both_true
    (env : OsEnv) (port : String) (baudrate : Nat) (bs : bytesize_t)
    (par : parity_t) (sb : stopbits_t) (fc : flowcontrol_t)
    (script : List (OsEnv × Op)) :
    flowBoolsExclusive
      (runOps script (SerialImpl_mk env port baudrate bs par sb fc).state)
      = true :=
  runOps_flow script _ (SerialImpl_mk_flow env port baudrate bs par sb fc)

end SerialSpec
